import Mathlib

/-!
Verification of the Virtual Try-On backend (src/backend/app/main.py).

Shallow embedding conventions:
  - A PIL raster image is modelled by its width, height, colour mode string,
    and the list of text labels drawn onto it.  Pixel contents are not
    modelled; every claim below is about dimensions, modes, control flow,
    the drawn badge text, or the cache, never about pixel values.
  - Python float arithmetic on the simple fractions appearing in the code
    (0.55, 0.6, 0.58, 0.42, 0.12, 0.75, 0.5) is modelled exactly over the
    rationals / by integer division with the same floor semantics as
    the Python int() truncation of the non-negative values involved.
  - Python strings are modelled as List Char where character-level
    reasoning is needed.
  - Remote HTTP traffic is modelled by an oracle from URLs to an optional
    status code and body; httpx raising on unsupported protocols and on
    non-2xx statuses is part of that model.
-/

/-- Model of a PIL raster image: dimensions, colour mode, drawn text labels. -/
structure Raster where
  width : Nat
  height : Nat
  mode : String
  texts : List String
deriving DecidableEq, Repr, Inhabited

/-- Models PIL Image.convert: the returned raster has the requested mode. -/
def convertMode (img : Raster) (m : String) : Raster :=
  { img with mode := m }

/-- Models PIL Image.resize: the returned raster has the requested size. -/
def resizeRaster (img : Raster) (w h : Nat) : Raster :=
  { img with width := w, height := h }

/-! ## Base64 image decoding (main.py lines 121-127) -/

/-- Models Python str.split on a comma separator: every occurrence splits,
empty fields are kept, and a string with no comma yields one field. -/
def pySplitComma : List Char → List (List Char)
  | [] => [[]]
  | c :: rest =>
    if c = ',' then [] :: pySplitComma rest
    else
      match pySplitComma rest with
      | [] => [[c]]
      | f :: r => (c :: f) :: r

/-- The payload substring that decode_base64_image hands to b64decode:
the source takes split(",")[1] when a comma is present, else the whole
string (main.py lines 123-124). -/
def selectedPayload (s : List Char) : List Char :=
  if ',' ∈ s then (pySplitComma s).getD 1 [] else s

/-- Models decode_base64_image: select the payload substring, then decode
it with the base64 decoder b64 (which yields a raster or fails). -/
def decode_base64_image (b64 : List Char → Option Raster) (s : List Char) :
    Option Raster :=
  b64 (selectedPayload s)

/-- Follows the claim wording, not the source: the substring strictly after
the FIRST comma, with everything before the comma ignored. -/
def payloadAfterFirstComma (s : List Char) : List Char :=
  if ',' ∈ s then (s.dropWhile (fun c => c ≠ ',')).drop 1 else s

/-! ## Preprocessor (main.py lines 186-200) -/

/-- The speed-mode envelope substituted for max_size when fast_mode is set
(main.py line 195). -/
def speedEnvelope (max_size : Nat × Nat) : Nat × Nat :=
  if max_size.1 ≥ max_size.2 then (512, 680) else (512, 512)

/-- The bound actually used by preprocess_image for the given flag. -/
def effectiveBound (max_size : Nat × Nat) (fast_mode : Bool) : Nat × Nat :=
  if fast_mode then speedEnvelope max_size else max_size

/-- Models the rounding helper inside PIL Image.thumbnail: pick the floor or
the ceiling of the ideal value, whichever the key prefers (the floor wins
ties, as Python min does), and never go below 1. -/
def roundAspect (q : ℚ) (key : ℤ → ℚ) : ℤ :=
  max (if key ⌈q⌉ < key ⌊q⌋ then ⌈q⌉ else ⌊q⌋) 1

/-- Models PIL Image.thumbnail size computation: a raster already within the
bound is untouched; otherwise the binding dimension is set to its bound and
the other is rounded from the preserved aspect ratio. -/
def thumbnailSize (w h mx my : Nat) : Nat × Nat :=
  if mx ≥ w ∧ my ≥ h then (w, h)
  else
    let aspect : ℚ := (w : ℚ) / (h : ℚ)
    if (mx : ℚ) / (my : ℚ) ≥ aspect then
      ((roundAspect ((my : ℚ) * aspect) (fun n => |aspect - (n : ℚ) / (my : ℚ)|)).toNat, my)
    else
      (mx, (roundAspect ((mx : ℚ) / aspect)
        (fun n => if n = 0 then 0 else |aspect - (mx : ℚ) / (n : ℚ)|)).toNat)

/-- Models image.thumbnail(max_size, LANCZOS) on the raster model. -/
def thumbnailImg (img : Raster) (m : Nat × Nat) : Raster :=
  { img with
    width := (thumbnailSize img.width img.height m.1 m.2).1,
    height := (thumbnailSize img.width img.height m.1 m.2).2 }

/-- The body of preprocess_image once the bound is fixed: thumbnail, then
normalize any mode outside RGB / RGBA to RGB (main.py lines 197-199). -/
def boundAndNormalize (img : Raster) (m : Nat × Nat) : Raster :=
  if (thumbnailImg img m).mode = "RGB" ∨ (thumbnailImg img m).mode = "RGBA"
  then thumbnailImg img m
  else convertMode (thumbnailImg img m) "RGB"

/-- Models preprocess_image (main.py lines 186-200): swap in the speed
envelope when fast_mode is set, thumbnail to the bound, and normalize the
colour mode. -/
def preprocess_image (img : Raster) (max_size : Nat × Nat) (fast_mode : Bool) :
    Raster :=
  boundAndNormalize img (effectiveBound max_size fast_mode)

/-! ## Compositor (main.py lines 505-631) -/

/-- The per-category placement parameters of generate_composite_tryon
(main.py lines 523-537), as integer percentages: the source floats 0.55,
0.42, 0.6, 0.12, 0.75, 0.58, 0.50 are exactly these fractions of 100. -/
structure PlacementParams where
  scaleWidthPct : Nat
  yPosPct : Nat
  maxHeightPct : Nat
deriving DecidableEq, Repr

/-- Category selection of generate_composite_tryon (main.py lines 523-537). -/
def placementParams (garment_type : String) : PlacementParams :=
  if garment_type = "pants" ∨ garment_type = "jeans" ∨ garment_type = "shorts"
      ∨ garment_type = "skirt" then
    { scaleWidthPct := 55, yPosPct := 42, maxHeightPct := 55 }
  else if garment_type = "dress" then
    { scaleWidthPct := 60, yPosPct := 12, maxHeightPct := 75 }
  else
    { scaleWidthPct := 58, yPosPct := 12, maxHeightPct := 50 }

/-- The garment scaling of generate_composite_tryon (main.py lines 539-548):
width-based scale first, then the height cap.  Python int() truncation of
the non-negative float products is the floor, realized here as Nat
division. -/
def compositeScale (garment_type : String) (user_width user_height gw gh : Nat) :
    Nat × Nat :=
  let p := placementParams garment_type
  let new_width := user_width * p.scaleWidthPct / 100
  let new_height := new_width * gh / gw
  let max_height := user_height * p.maxHeightPct / 100
  if new_height > max_height then (max_height * gw / gh, max_height)
  else (new_width, new_height)

/-- The badge label drawn near the bottom-right corner (main.py line 614),
byte-for-byte as the source file spells it. -/
def badge_text : String := "âœ¨ Preview - AI Try-On Available"

/-- The outcome of generate_composite_tryon together with a trace of which
processing branches ran. -/
structure CompositeTrace where
  result : Raster
  alphaBoostApplied : Bool
  edgeBlurComputed : Bool
  shadowComputed : Bool
  scaledSize : Nat × Nat
  xOffset : Int
  yOffset : Nat
deriving DecidableEq, Repr

/-- Models generate_composite_tryon (main.py lines 505-631).  Both inputs
are converted to RGBA up front (lines 517-518); the alpha-boost branch
(line 559), the unused edge-blur (line 566) and the shadow branch (line
584) each test the mode of the resized garment; the badge text is drawn
onto the final raster (line 629) which is flattened to RGB (line 631).
The x offset uses Python floor division, hence Int.fdiv. -/
def generate_composite_tryon (user_photo garment_image : Raster)
    (garment_type : String) : CompositeTrace :=
  let result0 := convertMode user_photo "RGBA"
  let garment := convertMode garment_image "RGBA"
  let s := compositeScale garment_type result0.width result0.height
    garment.width garment.height
  let garment_resized := resizeRaster garment s.1 s.2
  let boost := garment_resized.mode == "RGBA"
  let shadow := garment_resized.mode == "RGBA"
  let x_offset : Int := Int.fdiv ((result0.width : Int) - (s.1 : Int)) 2
  let y_offset := result0.height * (placementParams garment_type).yPosPct / 100
  let final : Raster :=
    { width := result0.width, height := result0.height, mode := "RGB",
      texts := user_photo.texts ++ [badge_text] }
  { result := final, alphaBoostApplied := boost, edgeBlurComputed := true,
    shadowComputed := shadow, scaledSize := s,
    xOffset := x_offset, yOffset := y_offset }

/-! ## Backend orchestrator (main.py lines 32-43, 747-853) -/

/-- Presence of the environment credentials read at startup (main.py lines
32-34).  Each field is the truthiness of the corresponding token value. -/
structure TokenEnv where
  replicateConfigured : Bool
  huggingfaceConfigured : Bool
  falConfigured : Bool
deriving DecidableEq, Repr

/-- USE_REPLICATE (main.py line 36). -/
def USE_REPLICATE (e : TokenEnv) : Bool := e.replicateConfigured

/-- USE_HUGGINGFACE (main.py line 37): hard-coded True, the Kolors space is
free and needs no token, so this ignores the credential. -/
def USE_HUGGINGFACE (_ : TokenEnv) : Bool := true

/-- USE_FAL (main.py line 38). -/
def USE_FAL (e : TokenEnv) : Bool := e.falConfigured

/-- The three AI backends tried by generate_tryon. -/
inductive Backend where
  | kolors
  | fal
  | replicate
deriving DecidableEq, Repr

/-- The availability predicate each attempt block tests (main.py lines 782,
797, 813). -/
def backendAvailable (e : TokenEnv) : Backend → Bool
  | .kolors => USE_HUGGINGFACE e
  | .fal => USE_FAL e
  | .replicate => USE_REPLICATE e

/-- The method tag each attempt block assigns on success (main.py lines
790, 806, 821). -/
def methodTag : Backend → String
  | .kolors => "ai-kolors"
  | .fal => "ai-fal"
  | .replicate => "ai-replicate"

/-- The name of each backend as it appears inside its method tag. -/
def backendName : Backend → String
  | .kolors => "kolors"
  | .fal => "fal"
  | .replicate => "replicate"

/-- The order in which generate_tryon attempts the backends (main.py lines
781-824: Hugging Face Kolors, then Fal, then Replicate). -/
def backendOrder : List Backend := [.kolors, .fal, .replicate]

/-- A backend invocation oracle: invoking backend b either yields a result
raster or raises, which the orchestrator catches.  It closes over the
preprocessed inputs of the request. -/
abbrev BackendRun := Backend → Except Unit Raster

/-- Orchestrator state while the attempt blocks run, plus the trace of the
backends actually invoked. -/
structure OrchState where
  method : String
  result : Option Raster
  invoked : List Backend
deriving DecidableEq, Repr

/-- One attempt block of generate_tryon (the shared shape of main.py lines
782-794, 797-810, 813-824): invoke only when the backend is available and
no result was produced yet; a success stores the raster and the method
tag, an exception is swallowed. -/
def attemptBackend (e : TokenEnv) (run : BackendRun) (st : OrchState)
    (b : Backend) : OrchState :=
  if backendAvailable e b = true ∧ st.result = none then
    match run b with
    | .ok img =>
      { method := methodTag b, result := some img, invoked := st.invoked ++ [b] }
    | .error _ => { st with invoked := st.invoked ++ [b] }
  else st

/-- The three sequential attempt blocks of generate_tryon. -/
def runBackends (e : TokenEnv) (run : BackendRun) : OrchState :=
  backendOrder.foldl (attemptBackend e run)
    { method := "composite", result := none, invoked := [] }

/-- Models encode_image_to_base64 (main.py lines 130-138) at the raster
level: the payload carries the raster, with RGBA flattened to RGB before
JPEG encoding. -/
def encode_image_to_base64 (img : Raster) : Raster :=
  if img.mode = "RGBA" then convertMode img "RGB" else img

/-- The response of the try-on endpoint (main.py lines 95-104), with the
encoded payload kept as the underlying raster. -/
structure TryOnResponse where
  success : Bool
  result_image : Option Raster
  error : Option String
  method : String
deriving DecidableEq, Repr

/-- Models the generate_tryon endpoint (main.py lines 747-853).  The two
inputs arrive as the outcome of decoding (and for the product possibly
fetching) the request payloads; a decoding failure is the source exception
reaching the outer handler, which answers success=False.  Otherwise both
rasters are preprocessed, the attempt blocks run, the composite fallback
fills in when no backend produced a result, and the response always has
success=True.  The second component is the trace of invoked backends. -/
def generate_tryon (e : TokenEnv) (run : BackendRun)
    (user_photo product_image : Except String Raster)
    (garment_type : String) (fast_mode : Bool) : TryOnResponse × List Backend :=
  match user_photo, product_image with
  | .ok u0, .ok g0 =>
    let u := preprocess_image u0 (768, 1024) fast_mode
    let g := preprocess_image g0 (768, 768) fast_mode
    let st := runBackends e run
    let final :=
      match st.result with
      | some img => img
      | none => (generate_composite_tryon u g garment_type).result
    ({ success := true, result_image := some (encode_image_to_base64 final),
       error := none, method := st.method }, st.invoked)
  | .error msg, _ =>
    ({ success := false, result_image := none, error := some msg,
       method := "composite" }, [])
  | _, .error msg =>
    ({ success := false, result_image := none, error := some msg,
       method := "composite" }, [])

/-! ## Remote fetch, cache and proxy surfaces (main.py lines 62-63,
152-183, 671-740, 768-773) -/

/-- The bounded in-memory cache (main.py lines 62-63), modelled as an
association list in insertion order: the head is the earliest-inserted
entry, exactly the one next(iter(image_cache)) yields on a Python dict.
Keys are hash strings, values are byte-content identifiers. -/
abbrev CacheT := List (List Char × Nat)

/-- CACHE_MAX_SIZE (main.py line 63). -/
def CACHE_MAX_SIZE : Nat := 100

/-- Python dict lookup on the association-list cache. -/
def cacheFind : CacheT → List Char → Option Nat
  | [], _ => none
  | (k, v) :: rest, key => if k = key then some v else cacheFind rest key

/-- The scheme component urlparse extracts: the characters before the first
colon (lower-case schemes assumed, as in every URL the service handles). -/
def urlScheme (u : List Char) : List Char :=
  if ':' ∈ u then u.takeWhile (fun c => c ≠ ':') else []

/-- The scheme test of main.py line 680, also the protocol support test
httpx itself applies to every request. -/
def SchemeOk (u : List Char) : Prop :=
  urlScheme u = "http".toList ∨ urlScheme u = "https".toList

instance (u : List Char) : Decidable (SchemeOk u) := by
  unfold SchemeOk; infer_instance

/-- The ways a remote image fetch fails. -/
inductive FetchError where
  | unsupportedScheme
  | badStatus (code : Nat)
  | timeout
deriving DecidableEq, Repr

/-- The remote network as seen through one httpx get: none is a timeout or
connection failure, some (code, body) a response after redirects. -/
abbrev NetModel := List Char → Option (Nat × Nat)

/-- Models client.get(url) followed by response.raise_for_status (main.py
lines 166-168): httpx raises UnsupportedProtocol unless the URL scheme is
http or https, raises on timeout, and raise_for_status raises unless the
status is a 2xx success. -/
def httpxGet (net : NetModel) (url : List Char) : Except FetchError Nat :=
  if SchemeOk url then
    match net url with
    | none => .error .timeout
    | some (code, body) =>
      if 200 ≤ code ∧ code < 300 then .ok body else .error (.badStatus code)
  else .error .unsupportedScheme

/-- Models fetch_image_bytes (main.py lines 152-177): return the cached
bytes when the hashed URL is a known key; otherwise fetch, and on success
evict the earliest-inserted entry when the cache is full before inserting.
The hash h stands for the hexadecimal md5 of line 155. -/
def fetch_image_bytes (h : List Char → List Char) (net : NetModel)
    (cache : CacheT) (url : List Char) : Except FetchError Nat × CacheT :=
  let key := h url
  match cacheFind cache key with
  | some v => (.ok v, cache)
  | none =>
    match httpxGet net url with
    | .error e => (.error e, cache)
    | .ok body =>
      let c1 := if CACHE_MAX_SIZE ≤ cache.length then cache.drop 1 else cache
      (.ok body, c1 ++ [(key, body)])

/-- Models the proxy_image endpoint (main.py lines 671-707): an explicit
scheme check raises HTTPException(400), which the blanket except clause of
line 706 converts to a 500; an httpx status error propagates the upstream
status; any other failure becomes a 500. -/
def proxy_image (h : List Char → List Char) (net : NetModel)
    (cache : CacheT) (url : List Char) : Except Nat Nat × CacheT :=
  if SchemeOk url then
    match fetch_image_bytes h net cache url with
    | (.ok b, c) => (.ok b, c)
    | (.error (.badStatus s), c) => (.error s, c)
    | (.error _, c) => (.error 500, c)
  else (.error 500, cache)

/-- The JSON shape the base64 proxy answers with. -/
structure ProxyB64Response where
  success : Bool
deriving DecidableEq, Repr

/-- Models the proxy_image_base64 endpoint (main.py lines 710-740): no
scheme check of its own, fetch then re-encode, with a blanket except that
answers success=False. -/
def proxy_image_base64 (h : List Char → List Char) (net : NetModel)
    (cache : CacheT) (url : List Char) : ProxyB64Response × CacheT :=
  match fetch_image_bytes h net cache url with
  | (.ok _, c) => ({ success := true }, c)
  | (.error _, c) => ({ success := false }, c)

/-- Models the product-image resolution of the try-on pipeline (main.py
lines 768-771): a payload starting with the four characters http is
fetched as a URL, anything else is decoded as base64.  parse stands for
Image.open on the fetched bytes. -/
def resolve_product_image (h : List Char → List Char) (net : NetModel)
    (cache : CacheT) (product : List Char)
    (b64 : List Char → Option Raster) (parse : Nat → Option Raster) :
    Except String Raster × CacheT :=
  if product.take 4 = "http".toList then
    match fetch_image_bytes h net cache product with
    | (.ok bytes, c) =>
      (match parse bytes with
       | some img => .ok img
       | none => .error "decode", c)
    | (.error _, c) => (.error "fetch", c)
  else
    (match decode_base64_image b64 product with
     | some img => .ok img
     | none => .error "decode", cache)

/-- Every cache key is the hash of some URL whose scheme passed the httpx
protocol check: the shape of every entry fetch_image_bytes inserts. -/
def CacheWF (h : List Char → List Char) (cache : CacheT) : Prop :=
  ∀ e ∈ cache, ∃ u, e.1 = h u ∧ SchemeOk u

/-- A whole sequence of fetch requests against the shared cache, threading
the cache state through. -/
def runFetchSeq (h : List Char → List Char) (net : NetModel) :
    CacheT → List (List Char) → CacheT
  | c, [] => c
  | c, u :: rest => runFetchSeq h net (fetch_image_bytes h net c u).2 rest

/-! ## Helper lemmas about the comma split -/

lemma pySplitComma_no_comma {t : List Char} (h : ',' ∉ t) : pySplitComma t = [t] := by
  induction t with
  | nil => rfl
  | cons c rest ih =>
    have hc : ¬ c = ',' := fun e => h (by simp [e])
    have hr : ',' ∉ rest := fun m => h (by simp [m])
    simp only [pySplitComma, if_neg hc, ih hr]

lemma pySplitComma_append_comma {a : List Char} (t : List Char) (h : ',' ∉ a) :
    pySplitComma (a ++ ',' :: t) = a :: pySplitComma t := by
  induction a with
  | nil => simp [pySplitComma]
  | cons c a ih =>
    have hc : ¬ c = ',' := fun e => h (by simp [e])
    have ha : ',' ∉ a := fun m => h (by simp [m])
    simp only [List.cons_append, pySplitComma, List.append_eq, if_neg hc, ih ha]

/-! ## Claim theorems: C8 -/

/-- Claim C8 counterexample: the claim says each speed-mode envelope is
roughly 33 to 40 percent smaller than its quality envelope in each
dimension, but for the (768, 1024) user-photo preset the speed envelope is
(512, 512), whose second dimension is 50 percent smaller. -/
theorem c8_counterexample :
    speedEnvelope (768, 1024) = (512, 512)
    ∧ ¬ ((33 : ℚ) / 100 ≤ (1024 - ((speedEnvelope (768, 1024)).2 : ℚ)) / 1024
        ∧ (1024 - ((speedEnvelope (768, 1024)).2 : ℚ)) / 1024 ≤ 40 / 100) := by
  have h : speedEnvelope (768, 1024) = (512, 512) := by decide
  refine ⟨h, ?_⟩
  rw [h]
  norm_num

/-- Claim C8 amended: the (768, 1024) preset shrinks to (512, 512) in speed
mode and the (768, 768) preset to (512, 680); the first dimension shrinks
by exactly one third for both presets, while the second shrinks by one
half for the first preset and by 11/96 (about 11.5 percent) for the
second. -/
theorem c8_speed_envelope_values :
    speedEnvelope (768, 1024) = (512, 512)
    ∧ speedEnvelope (768, 768) = (512, 680)
    ∧ (768 - ((speedEnvelope (768, 1024)).1 : ℚ)) / 768 = 1 / 3
    ∧ (1024 - ((speedEnvelope (768, 1024)).2 : ℚ)) / 1024 = 1 / 2
    ∧ (768 - ((speedEnvelope (768, 768)).1 : ℚ)) / 768 = 1 / 3
    ∧ (768 - ((speedEnvelope (768, 768)).2 : ℚ)) / 768 = 11 / 96 := by
  have h1 : speedEnvelope (768, 1024) = (512, 512) := by decide
  have h2 : speedEnvelope (768, 768) = (512, 680) := by decide
  refine ⟨h1, h2, ?_, ?_, ?_, ?_⟩ <;> simp only [h1, h2] <;> norm_num

/-! ## Claim theorems: C5 -/

/-- Claim C5 counterexample: for a fully opaque garment (mode RGB, no alpha
channel) the compositor still runs the alpha-boost, the edge blur and the
shadow computation, because line 518 converts the garment to RGBA before
any of the mode tests; the claimed skip never happens. -/
theorem c5_counterexample :
    (generate_composite_tryon ⟨500, 600, "RGBA", []⟩ ⟨200, 300, "RGB", []⟩
        "top").alphaBoostApplied = true
    ∧ (generate_composite_tryon ⟨500, 600, "RGBA", []⟩ ⟨200, 300, "RGB", []⟩
        "top").shadowComputed = true
    ∧ (generate_composite_tryon ⟨500, 600, "RGBA", []⟩ ⟨200, 300, "RGB", []⟩
        "top").edgeBlurComputed = true := by
  refine ⟨?_, ?_, ?_⟩ <;> rfl

/-- Claim C5 amended: for every garment raster, with or without an alpha
channel, the compositor converts the garment to RGBA up front, so the
alpha-boost, the edge blur and the shadow computation always run; the
direct-paste branch for non-RGBA garments is unreachable. -/
theorem c5_alpha_boost_always (person garment : Raster) (garment_type : String) :
    (generate_composite_tryon person garment garment_type).alphaBoostApplied = true
    ∧ (generate_composite_tryon person garment garment_type).shadowComputed = true
    ∧ (generate_composite_tryon person garment garment_type).edgeBlurComputed = true := by
  refine ⟨?_, ?_, ?_⟩ <;> simp [generate_composite_tryon, resizeRaster, convertMode]

/-! ## Claim theorems: C10 -/

/-- Claim C10 counterexample: on an input with two commas the decoder does
not decode the substring after the first comma; it decodes only the field
between the first and second commas, because split(",")[1] is the second
comma-separated field. -/
theorem c10_counterexample :
    selectedPayload ("a,b,c".toList) = "b".toList
    ∧ payloadAfterFirstComma ("a,b,c".toList) = "b,c".toList
    ∧ selectedPayload ("a,b,c".toList) ≠ payloadAfterFirstComma ("a,b,c".toList) := by
  refine ⟨by decide, by decide, by decide⟩

/-- Claim C10 amended: the decoder base64-decodes the second
comma-separated field of the input (everything before the first comma is
ignored without validation); when the part after the first comma contains
no further comma this is exactly the substring after the first comma, so a
data-URI-prefixed payload and its bare base64 suffix decode to the same
image, and an input without a comma is decoded as a whole. -/
theorem c10_second_field (pre payload : List Char)
    (hpre : ',' ∉ pre) (hpay : ',' ∉ payload) :
    selectedPayload (pre ++ ',' :: payload) = payload
    ∧ selectedPayload payload = payload
    ∧ ∀ b64 : List Char → Option Raster,
        decode_base64_image b64 (pre ++ ',' :: payload)
          = decode_base64_image b64 payload := by
  have h1 : selectedPayload (pre ++ ',' :: payload) = payload := by
    unfold selectedPayload
    rw [if_pos (by simp), pySplitComma_append_comma payload hpre,
      pySplitComma_no_comma hpay]
    rfl
  have h2 : selectedPayload payload = payload := by
    unfold selectedPayload
    rw [if_neg hpay]
  exact ⟨h1, h2, fun b64 => by unfold decode_base64_image; rw [h1, h2]⟩

/-- Witness for C10 at a concrete data URI. -/
theorem c10_witness :
    selectedPayload ("data:image/png;base64".toList ++ ',' :: "QUJD".toList)
      = "QUJD".toList
    ∧ selectedPayload ("QUJD".toList) = "QUJD".toList := by
  have h := c10_second_field ("data:image/png;base64".toList) ("QUJD".toList)
    (by decide) (by decide)
  exact ⟨h.1, h.2.1⟩

/-! ## Claim theorems: C4 -/

/-- Claim C4: the garment is scaled to the category width fraction first;
when the implied height exceeds the category height cap the height is
clamped to the cap and the width recomputed from the aspect ratio, so the
scaled height never exceeds the cap; in particular a dress garment of
aspect ratio 1:2 on a 1000 by 1000 person raster scales to 375 by 750. -/
theorem c4_scale_height_precedence (garment_type : String)
    (uw uh gw gh : Nat) :
    (compositeScale garment_type uw uh gw gh).2
        ≤ uh * (placementParams garment_type).maxHeightPct / 100
    ∧ ((uw * (placementParams garment_type).scaleWidthPct / 100) * gh / gw
          ≤ uh * (placementParams garment_type).maxHeightPct / 100 →
        compositeScale garment_type uw uh gw gh
          = (uw * (placementParams garment_type).scaleWidthPct / 100,
             (uw * (placementParams garment_type).scaleWidthPct / 100) * gh / gw))
    ∧ (∀ g1 : Nat, 1 ≤ g1 →
        compositeScale "dress" 1000 1000 g1 (2 * g1) = (375, 750)) := by
  refine ⟨?_, ?_, ?_⟩
  · simp only [compositeScale]
    split
    · simp
    · rename_i hno
      simpa using Nat.le_of_not_lt hno
  · intro hle
    simp only [compositeScale]
    rw [if_neg (not_lt.mpr hle)]
  · intro g1 hg1
    have hp : placementParams "dress"
        = { scaleWidthPct := 60, yPosPct := 12, maxHeightPct := 75 } := by decide
    have h2 : 600 * (2 * g1) / g1 = 1200 := by
      rw [show 600 * (2 * g1) = 1200 * g1 from by ring,
        Nat.mul_div_cancel _ (by omega)]
    have h4 : 750 * g1 / (2 * g1) = 375 := by
      rw [show 750 * g1 = 375 * (2 * g1) from by ring,
        Nat.mul_div_cancel _ (by omega)]
    simp only [compositeScale, hp]
    rw [show 1000 * 60 / 100 = 600 from by norm_num,
      show 1000 * 75 / 100 = 750 from by norm_num, h2, h4]
    norm_num

/-- Witness for C4 at a concrete 400 by 800 garment. -/
theorem c4_witness :
    compositeScale "dress" 1000 1000 400 (2 * 400) = (375, 750) :=
  (c4_scale_height_precedence "dress" 1000 1000 400 800).2.2 400 (by decide)

/-! ## Helper lemmas about the orchestrator fold -/

/-- The backends an orchestrator pass over the given priority list
invokes: available ones, in order, up to and including the first success. -/
def attemptedList (e : TokenEnv) (run : BackendRun) : List Backend → List Backend
  | [] => []
  | b :: rest =>
    if backendAvailable e b = true then
      if (run b).isOk then [b] else b :: attemptedList e run rest
    else attemptedList e run rest

/-- The first available backend whose invocation succeeds, if any. -/
def firstSuccess (e : TokenEnv) (run : BackendRun) : List Backend → Option Backend
  | [] => none
  | b :: rest =>
    if backendAvailable e b = true ∧ (run b).isOk = true then some b
    else firstSuccess e run rest

lemma foldl_attempt_of_some (e : TokenEnv) (run : BackendRun) :
    ∀ (l : List Backend) (st : OrchState), st.result.isSome = true →
      l.foldl (attemptBackend e run) st = st := by
  intro l
  induction l with
  | nil => intro st _; rfl
  | cons b rest ih =>
    intro st h
    have hstep : attemptBackend e run st b = st := by
      unfold attemptBackend
      rw [if_neg]
      rintro ⟨-, hnone⟩
      rw [hnone] at h
      simp at h
    rw [List.foldl_cons, hstep]
    exact ih st h

lemma attemptedList_avail (e : TokenEnv) (run : BackendRun) :
    ∀ (l : List Backend) (b : Backend), b ∈ attemptedList e run l →
      backendAvailable e b = true := by
  intro l
  induction l with
  | nil => intro b h; simp [attemptedList] at h
  | cons c rest ih =>
    intro b h
    by_cases hav : backendAvailable e c = true
    · rw [attemptedList, if_pos hav] at h
      by_cases hok : (run c).isOk = true
      · rw [if_pos hok] at h
        rw [List.mem_singleton.mp h]
        exact hav
      · rw [if_neg hok] at h
        rcases List.mem_cons.mp h with h1 | h2
        · rw [h1]; exact hav
        · exact ih b h2
    · rw [attemptedList, if_neg hav] at h
      exact ih b h

lemma firstSuccess_concat (e : TokenEnv) (run : BackendRun) :
    ∀ (l : List Backend) (b : Backend), firstSuccess e run l = some b →
      ∃ pre, attemptedList e run l = pre ++ [b] := by
  intro l
  induction l with
  | nil => intro b h; simp [firstSuccess] at h
  | cons c rest ih =>
    intro b h
    by_cases hcond : backendAvailable e c = true ∧ (run c).isOk = true
    · rw [firstSuccess, if_pos hcond] at h
      refine ⟨[], ?_⟩
      rw [Option.some_inj.mp h] at hcond ⊢
      rw [attemptedList, if_pos hcond.1, if_pos hcond.2]
      rfl
    · rw [firstSuccess, if_neg hcond] at h
      rcases ih b h with ⟨pre, hpre⟩
      by_cases hav : backendAvailable e c = true
      · have hok : ¬ (run c).isOk = true := fun hk => hcond ⟨hav, hk⟩
        refine ⟨c :: pre, ?_⟩
        rw [attemptedList, if_pos hav, if_neg hok, hpre]
        rfl
      · refine ⟨pre, ?_⟩
        rw [attemptedList, if_neg hav]
        exact hpre

lemma firstSuccess_none_of_all_fail (e : TokenEnv) (run : BackendRun) :
    ∀ (l : List Backend),
      (∀ b, backendAvailable e b = true → (run b).isOk = false) →
      firstSuccess e run l = none := by
  intro l h
  induction l with
  | nil => rfl
  | cons c rest ih =>
    rw [firstSuccess, if_neg, ih]
    rintro ⟨hav, hok⟩
    rw [h c hav] at hok
    exact Bool.false_ne_true hok

lemma foldl_attempt_spec (e : TokenEnv) (run : BackendRun) :
    ∀ (l : List Backend) (st : OrchState), st.result = none →
      (l.foldl (attemptBackend e run) st).invoked
          = st.invoked ++ attemptedList e run l
      ∧ (match firstSuccess e run l with
         | some b => (l.foldl (attemptBackend e run) st).method = methodTag b
             ∧ (l.foldl (attemptBackend e run) st).result.isSome = true
         | none => (l.foldl (attemptBackend e run) st).method = st.method
             ∧ (l.foldl (attemptBackend e run) st).result = none) := by
  intro l
  induction l with
  | nil =>
    intro st hst
    exact ⟨by simp [attemptedList], ⟨rfl, hst⟩⟩
  | cons b rest ih =>
    intro st hst
    by_cases hav : backendAvailable e b = true
    · cases hrun : run b with
      | ok img =>
        have hok : (run b).isOk = true := by rw [hrun]; rfl
        have hstep : attemptBackend e run st b
            = { method := methodTag b, result := some img,
                invoked := st.invoked ++ [b] } := by
          unfold attemptBackend
          rw [if_pos ⟨hav, hst⟩, hrun]
        have hkeep := foldl_attempt_of_some e run rest
          { method := methodTag b, result := some img,
            invoked := st.invoked ++ [b] } rfl
        rw [List.foldl_cons, hstep, hkeep]
        constructor
        · rw [attemptedList, if_pos hav, if_pos hok]
        · rw [firstSuccess, if_pos ⟨hav, hok⟩]
          exact ⟨rfl, rfl⟩
      | error u =>
        have hok : ¬ (run b).isOk = true := by
          rw [hrun]
          exact fun hc => Bool.false_ne_true hc
        have hstep : attemptBackend e run st b
            = { st with invoked := st.invoked ++ [b] } := by
          unfold attemptBackend
          rw [if_pos ⟨hav, hst⟩, hrun]
        rcases ih { st with invoked := st.invoked ++ [b] } hst with ⟨hinv, hrest⟩
        rw [List.foldl_cons, hstep]
        constructor
        · rw [hinv, attemptedList, if_pos hav, if_neg hok]
          simp
        · rw [firstSuccess, if_neg (fun hc => hok hc.2)]
          exact hrest
    · have hstep : attemptBackend e run st b = st := by
        unfold attemptBackend
        rw [if_neg (fun hc => hav hc.1)]
      rcases ih st hst with ⟨hinv, hrest⟩
      rw [List.foldl_cons, hstep]
      constructor
      · rw [hinv, attemptedList, if_neg hav]
      · rw [firstSuccess, if_neg (fun hc => hav hc.1)]
        exact hrest

lemma runBackends_spec (e : TokenEnv) (run : BackendRun) :
    (runBackends e run).invoked = attemptedList e run backendOrder
    ∧ (match firstSuccess e run backendOrder with
       | some b => (runBackends e run).method = methodTag b
           ∧ (runBackends e run).result.isSome = true
       | none => (runBackends e run).method = "composite"
           ∧ (runBackends e run).result = none) := by
  have h := foldl_attempt_spec e run backendOrder
    { method := "composite", result := none, invoked := [] } rfl
  exact ⟨by simpa using h.1, h.2⟩

lemma methodTag_eq_name (b : Backend) : methodTag b = "ai-" ++ backendName b := by
  cases b <;> rfl

lemma generate_tryon_proj (e : TokenEnv) (run : BackendRun) (u0 g0 : Raster)
    (t : String) (f : Bool) :
    (generate_tryon e run (.ok u0) (.ok g0) t f).2 = (runBackends e run).invoked
    ∧ (generate_tryon e run (.ok u0) (.ok g0) t f).1.method
        = (runBackends e run).method
    ∧ (generate_tryon e run (.ok u0) (.ok g0) t f).1.success = true := by
  refine ⟨rfl, rfl, rfl⟩

/-! ## Claim theorems: C3 -/

/-- Claim C3: for every try-on request that decodes, backends are tried in
the fixed priority order: the invocation trace is exactly the available
backends in order up to and including the first success, every invoked
backend is available (unavailable ones are skipped without invocation),
the first succeeding backend ends the trace (nothing later is invoked),
and the response method then names it as ai-name; with no success the
method stays composite. -/
theorem c3_priority_order (e : TokenEnv) (run : BackendRun) (u0 g0 : Raster)
    (garment_type : String) (fast : Bool) :
    (generate_tryon e run (.ok u0) (.ok g0) garment_type fast).2
        = attemptedList e run backendOrder
    ∧ (∀ b ∈ (generate_tryon e run (.ok u0) (.ok g0) garment_type fast).2,
        backendAvailable e b = true)
    ∧ (∀ b, firstSuccess e run backendOrder = some b →
        (generate_tryon e run (.ok u0) (.ok g0) garment_type fast).1.method
            = "ai-" ++ backendName b
        ∧ (generate_tryon e run (.ok u0) (.ok g0) garment_type fast).2.getLast?
            = some b)
    ∧ (firstSuccess e run backendOrder = none →
        (generate_tryon e run (.ok u0) (.ok g0) garment_type fast).1.method
            = "composite") := by
  rcases generate_tryon_proj e run u0 g0 garment_type fast with ⟨h2, hm, -⟩
  rcases runBackends_spec e run with ⟨hinv, hmatch⟩
  have htrace : (generate_tryon e run (.ok u0) (.ok g0) garment_type fast).2
      = attemptedList e run backendOrder := by rw [h2, hinv]
  refine ⟨htrace, ?_, ?_, ?_⟩
  · intro b hb
    rw [htrace] at hb
    exact attemptedList_avail e run backendOrder b hb
  · intro b hb
    rw [hb] at hmatch
    refine ⟨by rw [hm, hmatch.1, methodTag_eq_name], ?_⟩
    rcases firstSuccess_concat e run backendOrder b hb with ⟨pre, hpre⟩
    rw [htrace, hpre]
    exact List.getLast?_concat _
  · intro hb
    rw [hb] at hmatch
    rw [hm, hmatch.1]

/-- Witness for C3: only Fal succeeds (Kolors fails, Replicate is not
configured), so the method is ai-fal and the trace ends at Fal. -/
theorem c3_witness :
    (generate_tryon ⟨false, false, true⟩
        (fun b => match b with
          | .fal => .ok ⟨480, 640, "RGB", []⟩
          | _ => .error ())
        (.ok ⟨400, 500, "RGB", []⟩) (.ok ⟨300, 400, "RGB", []⟩)
        "top" true).1.method = "ai-" ++ backendName Backend.fal := by
  exact ((c3_priority_order ⟨false, false, true⟩
    (fun b => match b with
      | .fal => .ok ⟨480, 640, "RGB", []⟩
      | _ => .error ())
    ⟨400, 500, "RGB", []⟩ ⟨300, 400, "RGB", []⟩ "top" true).2.2.1
    Backend.fal (by decide)).1

/-! ## Claim theorems: C2 -/

/-- Claim C2: for every request whose inputs decode and preprocess
successfully, the response has success=True no matter what the backends
do, and when every backend is unavailable or fails the method is
composite; a backend failure never yields success=False. -/
theorem c2_backend_failures_absorbed (e : TokenEnv) (run : BackendRun)
    (u0 g0 : Raster) (garment_type : String) (fast : Bool) :
    (generate_tryon e run (.ok u0) (.ok g0) garment_type fast).1.success = true
    ∧ ((∀ b, backendAvailable e b = true → (run b).isOk = false) →
        (generate_tryon e run (.ok u0) (.ok g0) garment_type fast).1.method
            = "composite") := by
  rcases generate_tryon_proj e run u0 g0 garment_type fast with ⟨-, hm, hs⟩
  refine ⟨hs, ?_⟩
  intro hall
  have hn := firstSuccess_none_of_all_fail e run backendOrder hall
  rcases runBackends_spec e run with ⟨-, hmatch⟩
  rw [hn] at hmatch
  rw [hm, hmatch.1]

/-- Witness for C2: every backend raises, the response still succeeds with
the composite method. -/
theorem c2_witness :
    (generate_tryon ⟨true, true, true⟩ (fun _ => .error ())
        (.ok ⟨400, 500, "RGB", []⟩) (.ok ⟨300, 400, "RGB", []⟩)
        "dress" false).1.success = true
    ∧ (generate_tryon ⟨true, true, true⟩ (fun _ => .error ())
        (.ok ⟨400, 500, "RGB", []⟩) (.ok ⟨300, 400, "RGB", []⟩)
        "dress" false).1.method = "composite" := by
  have h := c2_backend_failures_absorbed ⟨true, true, true⟩ (fun _ => .error ())
    ⟨400, 500, "RGB", []⟩ ⟨300, 400, "RGB", []⟩ "dress" false
  exact ⟨h.1, h.2 (fun b _ => rfl)⟩

/-! ## Claim theorems: C1 -/

/-- Claim C1 counterexample: with every credential absent the orchestrator
still invokes the Hugging Face Kolors backend, because USE_HUGGINGFACE is
hard-coded True (main.py line 37); the invocation trace is not empty, so
at least one AI backend attempt occurs. -/
theorem c1_counterexample :
    (generate_tryon ⟨false, false, false⟩ (fun _ => .error ())
        (.ok ⟨400, 500, "RGB", []⟩) (.ok ⟨300, 400, "RGB", []⟩)
        "top" true).2 = [Backend.kolors]
    ∧ ([Backend.kolors] : List Backend) ≠ [] := by
  exact ⟨by decide, by decide⟩

/-- Claim C1 amended: with no credential configured, Replicate and Fal are
skipped without invocation but the Kolors backend is still attempted (its
availability is hard-coded and credential-independent); when that attempt
fails, the response is a successful composite whose final raster contains
the badge text. -/
theorem c1_no_credentials_composite (run : BackendRun) (u0 g0 : Raster)
    (garment_type : String) (fast : Bool)
    (hfail : run Backend.kolors = .error ()) :
    (generate_tryon ⟨false, false, false⟩ run (.ok u0) (.ok g0)
        garment_type fast).2 = [Backend.kolors]
    ∧ (generate_tryon ⟨false, false, false⟩ run (.ok u0) (.ok g0)
        garment_type fast).1.success = true
    ∧ (generate_tryon ⟨false, false, false⟩ run (.ok u0) (.ok g0)
        garment_type fast).1.method = "composite"
    ∧ ∃ r, (generate_tryon ⟨false, false, false⟩ run (.ok u0) (.ok g0)
        garment_type fast).1.result_image = some r ∧ badge_text ∈ r.texts := by
  have hst : runBackends ⟨false, false, false⟩ run
      = { method := "composite", result := none, invoked := [Backend.kolors] } := by
    simp [runBackends, backendOrder, List.foldl_cons, List.foldl_nil,
      attemptBackend, backendAvailable,
      USE_HUGGINGFACE, USE_FAL, USE_REPLICATE, hfail]
  have hnone : (runBackends ⟨false, false, false⟩ run).result = none := by
    rw [hst]
  have h4 : (generate_tryon ⟨false, false, false⟩ run (.ok u0) (.ok g0)
      garment_type fast).1.result_image
      = some (encode_image_to_base64
          ((generate_composite_tryon (preprocess_image u0 (768, 1024) fast)
            (preprocess_image g0 (768, 768) fast) garment_type).result)) := by
    simp only [generate_tryon]
    rw [hnone]
  refine ⟨?_, rfl, ?_, ?_⟩
  · show (runBackends ⟨false, false, false⟩ run).invoked = _
    rw [hst]
  · show (runBackends ⟨false, false, false⟩ run).method = _
    rw [hst]
  · exact ⟨_, h4, by simp [generate_composite_tryon, encode_image_to_base64,
      convertMode]⟩

/-- Witness for C1: concrete request with no credentials and a failing
Kolors invocation. -/
theorem c1_witness :
    (generate_tryon ⟨false, false, false⟩ (fun _ => .error ())
        (.ok ⟨400, 500, "RGB", []⟩) (.ok ⟨300, 400, "RGB", []⟩)
        "skirt" true).1.method = "composite" :=
  (c1_no_credentials_composite (fun _ => .error ())
    ⟨400, 500, "RGB", []⟩ ⟨300, 400, "RGB", []⟩ "skirt" true rfl).2.2.1

/-! ## Helper lemmas about the fetch cache -/

lemma cacheFind_scheme (h : List Char → List Char) (hinj : Function.Injective h)
    (url : List Char) (v : Nat) :
    ∀ cache : CacheT, CacheWF h cache →
      cacheFind cache (h url) = some v → SchemeOk url := by
  intro cache
  induction cache with
  | nil => intro _ hfind; simp [cacheFind] at hfind
  | cons entry rest ih =>
    intro hwf hfind
    rcases entry with ⟨k, val⟩
    by_cases hk : k = h url
    · rcases hwf (k, val) (List.mem_cons_self _ _) with ⟨u, hku, hsu⟩
      have hu : u = url := hinj (by rw [← hku, hk])
      rwa [← hu]
    · rw [cacheFind, if_neg hk] at hfind
      exact ih (fun entry he => hwf entry (List.mem_cons_of_mem _ he)) hfind

lemma fetch_bad_scheme (h : List Char → List Char) (net : NetModel)
    (cache : CacheT) (url : List Char) (hwf : CacheWF h cache)
    (hinj : Function.Injective h) (hbad : ¬ SchemeOk url) :
    (fetch_image_bytes h net cache url).1 = .error .unsupportedScheme := by
  have hmiss : cacheFind cache (h url) = none := by
    cases hfind : cacheFind cache (h url) with
    | none => rfl
    | some v => exact absurd (cacheFind_scheme h hinj url v cache hwf hfind) hbad
  simp only [fetch_image_bytes]
  rw [hmiss]
  unfold httpxGet
  rw [if_neg hbad]

lemma fetch_ok_scheme (h : List Char → List Char) (net : NetModel)
    (cache : CacheT) (url : List Char) (hwf : CacheWF h cache)
    (hinj : Function.Injective h)
    (hok : (fetch_image_bytes h net cache url).1.isOk = true) : SchemeOk url := by
  by_cases hs : SchemeOk url
  · exact hs
  · rw [fetch_bad_scheme h net cache url hwf hinj hs] at hok
    exact absurd hok (by simp [Except.isOk, Except.toBool])

/-! ## Claim theorems: C6 -/

/-- Claim C6: on all three remote-image paths only http and https URLs can
be fetched successfully, and an unsupported scheme, a network timeout or a
non-2xx status each yield a failure.  The fetch core enforces this through
httpx (given a well-formed cache under an injective content hash), the
byte proxy additionally has its own scheme check, the base64 proxy answers
success=False, and the try-on pipeline turns the failed product fetch into
an error. -/
theorem c6_scheme_and_failure_discipline (h : List Char → List Char)
    (net : NetModel) (cache : CacheT) (url : List Char)
    (b64 : List Char → Option Raster) (parse : Nat → Option Raster)
    (hwf : CacheWF h cache) (hinj : Function.Injective h) :
    ((fetch_image_bytes h net cache url).1.isOk = true → SchemeOk url)
    ∧ (¬ SchemeOk url →
        (fetch_image_bytes h net cache url).1 = .error .unsupportedScheme)
    ∧ (SchemeOk url → cacheFind cache (h url) = none → net url = none →
        (fetch_image_bytes h net cache url).1 = .error .timeout)
    ∧ (∀ code body, SchemeOk url → cacheFind cache (h url) = none →
        net url = some (code, body) → ¬ (200 ≤ code ∧ code < 300) →
        (fetch_image_bytes h net cache url).1 = .error (.badStatus code))
    ∧ (¬ SchemeOk url → (proxy_image h net cache url).1 = .error 500)
    ∧ ((proxy_image h net cache url).1.isOk = true → SchemeOk url)
    ∧ (¬ SchemeOk url →
        (proxy_image_base64 h net cache url).1.success = false)
    ∧ ((proxy_image_base64 h net cache url).1.success = true → SchemeOk url)
    ∧ (url.take 4 = "http".toList → ¬ SchemeOk url →
        (resolve_product_image h net cache url b64 parse).1 = .error "fetch") := by
  refine ⟨fetch_ok_scheme h net cache url hwf hinj,
    fetch_bad_scheme h net cache url hwf hinj, ?_, ?_, ?_, ?_, ?_, ?_, ?_⟩
  · intro hs hmiss hnet
    simp only [fetch_image_bytes]
    rw [hmiss]
    unfold httpxGet
    rw [if_pos hs, hnet]
  · intro code body hs hmiss hnet hbadcode
    simp only [fetch_image_bytes]
    rw [hmiss]
    unfold httpxGet
    rw [if_pos hs, hnet]
    simp [hbadcode]
  · intro hbad
    unfold proxy_image
    rw [if_neg hbad]
  · intro hok
    by_cases hs : SchemeOk url
    · exact hs
    · unfold proxy_image at hok
      rw [if_neg hs] at hok
      exact absurd hok (by simp [Except.isOk, Except.toBool])
  · intro hbad
    have hf := fetch_bad_scheme h net cache url hwf hinj hbad
    unfold proxy_image_base64
    cases hfe : fetch_image_bytes h net cache url with
    | mk res c =>
      rw [hfe] at hf
      simp only at hf
      rw [hf]
  · intro hok
    by_cases hs : SchemeOk url
    · exact hs
    · have hf := fetch_bad_scheme h net cache url hwf hinj hs
      unfold proxy_image_base64 at hok
      cases hfe : fetch_image_bytes h net cache url with
      | mk res c =>
        rw [hfe] at hf hok
        simp only at hf
        rw [hf] at hok
        simp at hok
  · intro htake hbad
    have hf := fetch_bad_scheme h net cache url hwf hinj hbad
    unfold resolve_product_image
    rw [if_pos htake]
    cases hfe : fetch_image_bytes h net cache url with
    | mk res c =>
      rw [hfe] at hf
      simp only at hf
      rw [hf]

/-- Witness for C6: empty cache, identity hash, a network that always
answers 200, and an ftp URL rejected on every path. -/
theorem c6_witness :
    (fetch_image_bytes (fun s => s) (fun _ => some (200, 7)) []
        ("ftp://host/img".toList)).1 = .error .unsupportedScheme
    ∧ (proxy_image (fun s => s) (fun _ => some (200, 7)) []
        ("ftp://host/img".toList)).1 = .error 500
    ∧ (proxy_image_base64 (fun s => s) (fun _ => some (200, 7)) []
        ("ftp://host/img".toList)).1.success = false := by
  have h := c6_scheme_and_failure_discipline (fun s => s)
    (fun _ => some (200, 7)) [] ("ftp://host/img".toList)
    (fun _ => none) (fun _ => none)
    (fun e he => absurd he (List.not_mem_nil e))
    (fun a b hab => hab)
  exact ⟨h.2.1 (by decide), h.2.2.2.2.1 (by decide), h.2.2.2.2.2.2.1 (by decide)⟩

/-! ## Claim theorems: C7 -/

lemma fetch_cache_len_le (h : List Char → List Char) (net : NetModel)
    (url : List Char) {cache : CacheT}
    (hlen : cache.length ≤ CACHE_MAX_SIZE) :
    (fetch_image_bytes h net cache url).2.length ≤ CACHE_MAX_SIZE := by
  simp only [fetch_image_bytes]
  cases hfind : cacheFind cache (h url) with
  | some v => exact hlen
  | none =>
    cases hget : httpxGet net url with
    | error e => exact hlen
    | ok body =>
      simp only [List.length_append, List.length_cons, List.length_nil]
      split
      · rename_i hfull
        simp only [List.length_drop]
        simp only [CACHE_MAX_SIZE] at hlen hfull ⊢
        omega
      · rename_i hroom
        rw [not_le] at hroom
        simp only [CACHE_MAX_SIZE] at hlen hroom ⊢
        omega

/-- Claim C7: the remote fetch cache never exceeds its capacity of
CACHE_MAX_SIZE = 100 entries across any sequence of fetches, and when a
new key is inserted while the cache is at capacity the evicted entry is
exactly the earliest-inserted one (the head of the insertion order). -/
theorem c7_cache_capacity_fifo (h : List Char → List Char) (net : NetModel) :
    (∀ (cache : CacheT) (urls : List (List Char)),
        cache.length ≤ CACHE_MAX_SIZE →
        (runFetchSeq h net cache urls).length ≤ CACHE_MAX_SIZE)
    ∧ (∀ (cache : CacheT) (url : List Char) (b : Nat),
        cache.length = CACHE_MAX_SIZE →
        cacheFind cache (h url) = none →
        (fetch_image_bytes h net cache url).1 = .ok b →
        (fetch_image_bytes h net cache url).2
          = cache.drop 1 ++ [(h url, b)]) := by
  constructor
  · intro cache urls
    induction urls generalizing cache with
    | nil => intro hlen; exact hlen
    | cons u rest ih =>
      intro hlen
      exact ih (fetch_image_bytes h net cache u).2 (fetch_cache_len_le h net u hlen)
  · intro cache url b hlen hmiss hok
    simp only [fetch_image_bytes] at hok ⊢
    rw [hmiss] at hok ⊢
    cases hget : httpxGet net url with
    | error e =>
      rw [hget] at hok
      simp at hok
    | ok body =>
      rw [hget] at hok
      simp only [Except.ok.injEq] at hok
      show (if CACHE_MAX_SIZE ≤ cache.length then List.drop 1 cache else cache)
          ++ [(h url, body)] = List.drop 1 cache ++ [(h url, b)]
      rw [if_pos (le_of_eq hlen.symm), hok]

/-- A concrete cache at capacity: one hundred single-character keys. -/
def c7WitnessCache : CacheT :=
  (List.range 100).map (fun i => ([Char.ofNat (6000 + i)], i))

/-- Witness for C7: a run of two fetches stays within the capacity, and a
fresh insertion into the full concrete cache evicts its head. -/
theorem c7_witness :
    (runFetchSeq (fun s => s) (fun _ => some (200, 7)) []
        ["http://a".toList, "http://b".toList]).length ≤ CACHE_MAX_SIZE
    ∧ (fetch_image_bytes (fun s => s) (fun _ => some (200, 7)) c7WitnessCache
        ("http://x".toList)).2
      = c7WitnessCache.drop 1 ++ [("http://x".toList, 7)] := by
  constructor
  · exact (c7_cache_capacity_fifo (fun s => s) (fun _ => some (200, 7))).1 []
      ["http://a".toList, "http://b".toList] (by decide)
  · exact (c7_cache_capacity_fifo (fun s => s) (fun _ => some (200, 7))).2
      c7WitnessCache ("http://x".toList) 7 (by decide) (by decide) (by rfl)

/-! ## Helper lemmas about the thumbnail bound -/

lemma roundAspect_le {q : ℚ} {key : ℤ → ℚ} {B : ℤ} (hB : 1 ≤ B)
    (hq : q ≤ (B : ℚ)) : roundAspect q key ≤ B := by
  unfold roundAspect
  have hc : ⌈q⌉ ≤ B := Int.ceil_le.mpr hq
  have hf : ⌊q⌋ ≤ B := le_trans (Int.floor_le_ceil q) hc
  exact max_le (by split <;> assumption) hB

lemma thumbnailSize_le (w h mx my : Nat) (hw : 1 ≤ w) (hh : 1 ≤ h)
    (hmx : 1 ≤ mx) (hmy : 1 ≤ my) :
    (thumbnailSize w h mx my).1 ≤ mx ∧ (thumbnailSize w h mx my).2 ≤ my := by
  have hw0 : (0 : ℚ) < (w : ℚ) := by exact_mod_cast Nat.lt_of_lt_of_le Nat.zero_lt_one hw
  have hh0 : (0 : ℚ) < (h : ℚ) := by exact_mod_cast Nat.lt_of_lt_of_le Nat.zero_lt_one hh
  have hmy0 : (0 : ℚ) < (my : ℚ) := by exact_mod_cast Nat.lt_of_lt_of_le Nat.zero_lt_one hmy
  simp only [thumbnailSize]
  split
  · rename_i hfit
    exact ⟨hfit.1, hfit.2⟩
  · split
    · rename_i hge
      refine ⟨?_, le_refl my⟩
      have hq : (my : ℚ) * ((w : ℚ) / (h : ℚ)) ≤ (mx : ℚ) := by
        have h1 : (w : ℚ) / (h : ℚ) ≤ (mx : ℚ) / (my : ℚ) := hge
        calc (my : ℚ) * ((w : ℚ) / (h : ℚ))
            ≤ (my : ℚ) * ((mx : ℚ) / (my : ℚ)) :=
              mul_le_mul_of_nonneg_left h1 (le_of_lt hmy0)
          _ = (mx : ℚ) := by field_simp
      have hra : roundAspect ((my : ℚ) * ((w : ℚ) / (h : ℚ)))
          (fun n => |(w : ℚ) / (h : ℚ) - (n : ℚ) / (my : ℚ)|) ≤ (mx : ℤ) :=
        roundAspect_le (by exact_mod_cast hmx) (by push_cast; exact hq)
      exact Int.toNat_le.mpr hra
    · rename_i hlt
      refine ⟨le_refl mx, ?_⟩
      have ha0 : (0 : ℚ) < (w : ℚ) / (h : ℚ) := div_pos hw0 hh0
      have h2 : (mx : ℚ) < ((w : ℚ) / (h : ℚ)) * (my : ℚ) := by
        have h3 := (div_lt_iff₀ hmy0).mp (not_le.mp hlt)
        linarith
      have hq : (mx : ℚ) / ((w : ℚ) / (h : ℚ)) ≤ (my : ℚ) :=
        le_of_lt ((div_lt_iff₀ ha0).mpr (by linarith))
      have hra : roundAspect ((mx : ℚ) / ((w : ℚ) / (h : ℚ)))
          (fun n => if n = 0 then 0
            else |(w : ℚ) / (h : ℚ) - (mx : ℚ) / (n : ℚ)|) ≤ (my : ℤ) :=
        roundAspect_le (by exact_mod_cast hmy) (by push_cast; exact hq)
      exact Int.toNat_le.mpr hra

lemma thumbnailSize_fits (w h mx my : Nat) (h1 : w ≤ mx) (h2 : h ≤ my) :
    thumbnailSize w h mx my = (w, h) := by
  simp only [thumbnailSize]
  rw [if_pos ⟨h1, h2⟩]

lemma thumbnailImg_of_fit (img : Raster) (m : Nat × Nat)
    (h1 : img.width ≤ m.1) (h2 : img.height ≤ m.2) : thumbnailImg img m = img := by
  unfold thumbnailImg
  rw [thumbnailSize_fits img.width img.height m.1 m.2 h1 h2]

lemma boundAndNormalize_width (img : Raster) (m : Nat × Nat) :
    (boundAndNormalize img m).width
      = (thumbnailSize img.width img.height m.1 m.2).1 := by
  unfold boundAndNormalize
  split <;> rfl

lemma boundAndNormalize_height (img : Raster) (m : Nat × Nat) :
    (boundAndNormalize img m).height
      = (thumbnailSize img.width img.height m.1 m.2).2 := by
  unfold boundAndNormalize
  split <;> rfl

lemma boundAndNormalize_mode (img : Raster) (m : Nat × Nat) :
    (boundAndNormalize img m).mode = "RGB"
      ∨ (boundAndNormalize img m).mode = "RGBA" := by
  unfold boundAndNormalize
  split
  · rename_i hm
    exact hm
  · left
    rfl

lemma boundAndNormalize_of_fit (img : Raster) (m : Nat × Nat)
    (h1 : img.width ≤ m.1) (h2 : img.height ≤ m.2)
    (hm : img.mode = "RGB" ∨ img.mode = "RGBA") :
    boundAndNormalize img m = img := by
  unfold boundAndNormalize
  rw [thumbnailImg_of_fit img m h1 h2, if_pos hm]

/-! ## Claim theorems: C9 -/

/-- Claim C9: for every raster with positive dimensions, every fixed
positive target bound and every value of the speed flag, preprocessing is
idempotent: the second application returns the first result unchanged, in
particular with the same dimensions and the same colour mode. -/
theorem c9_preprocess_idempotent (img : Raster) (max_size : Nat × Nat)
    (fast_mode : Bool) (hw : 1 ≤ img.width) (hh : 1 ≤ img.height)
    (hmx : 1 ≤ max_size.1) (hmy : 1 ≤ max_size.2) :
    preprocess_image (preprocess_image img max_size fast_mode) max_size fast_mode
      = preprocess_image img max_size fast_mode := by
  have hb1 : 1 ≤ (effectiveBound max_size fast_mode).1 := by
    unfold effectiveBound speedEnvelope
    split
    · split <;> decide
    · exact hmx
  have hb2 : 1 ≤ (effectiveBound max_size fast_mode).2 := by
    unfold effectiveBound speedEnvelope
    split
    · split <;> decide
    · exact hmy
  have hle := thumbnailSize_le img.width img.height
    (effectiveBound max_size fast_mode).1 (effectiveBound max_size fast_mode).2
    hw hh hb1 hb2
  unfold preprocess_image
  apply boundAndNormalize_of_fit
  · rw [boundAndNormalize_width]
    exact hle.1
  · rw [boundAndNormalize_height]
    exact hle.2
  · exact boundAndNormalize_mode img (effectiveBound max_size fast_mode)

/-- Witness for C9 at a concrete palette-mode raster in speed mode. -/
theorem c9_witness :
    preprocess_image (preprocess_image ⟨400, 500, "P", []⟩ (768, 1024) true)
        (768, 1024) true
      = preprocess_image ⟨400, 500, "P", []⟩ (768, 1024) true :=
  c9_preprocess_idempotent ⟨400, 500, "P", []⟩ (768, 1024) true
    (by decide) (by decide) (by decide) (by decide)
